import Mathlib

/-!
Shallow embedding of the donations-backend handlers.

The source files embedded here are:
  * `src/unnamed/part_001`       - the Stripe webhook verifier & forwarder
    (`api/stripe-webhook.js`).
  * `src/api/public-recent-donations.js` - two iterations of the public
    recent-donations feed handler; the file concatenates an events-based
    version (lines 1-179, "v1") and a sessions-based version
    (lines 180-349, "v2").

External collaborators (the Stripe SDK's `webhooks.constructEvent`, the
`crypto` hash/HMAC primitives, `JSON.stringify`, `Intl.NumberFormat` /
`toLocaleString` rendering, and the outbound `fetch`) are passed to the
handlers as function parameters: the handlers' control flow never inspects
their internals, only their results.

JavaScript string primitives (`toLowerCase`, `trim`, `split`, ...) are
re-implemented structurally over `List Char` so that every definition
reduces inside the kernel; Lean's built-in `String.toLower` etc. are
avoided only because they do not reduce, not because the semantics differ
on the ASCII data involved.
-/

/-! ## JavaScript primitive models -/

/-- JS `s.toLowerCase()` (ASCII, as used by the handlers). -/
def jsToLower (s : String) : String := ⟨s.data.map Char.toLower⟩

/-- JS `s.toUpperCase()` (ASCII, as used by the handlers). -/
def jsToUpper (s : String) : String := ⟨s.data.map Char.toUpper⟩

/-- JS `s.trim()`: strip leading and trailing whitespace. -/
def jsTrim (s : String) : String :=
  ⟨((s.data.dropWhile Char.isWhitespace).reverse.dropWhile Char.isWhitespace).reverse⟩

/-- Split a character list at every character satisfying `p`, keeping empty
segments, exactly like JS `String.prototype.split` with a single-character
(or character-class) separator.  The result is never `[]`. -/
def splitChP (p : Char → Bool) : List Char → List (List Char)
  | [] => [[]]
  | c :: rest =>
    match splitChP p rest with
    | [] => [[]]
    | t :: ts => if p c then [] :: t :: ts else (c :: t) :: ts

/-- JS `s.split(sep)` for a one-character separator. -/
def jsSplit (sep : Char) (s : String) : List String :=
  (splitChP (fun c => c = sep) s.data).map String.mk

/-- JS `a || b` where `a` is a string: `b` if `a` is falsy (""), else `a`. -/
def jsOr (a b : String) : String := if a = "" then b else a

/-- JS `a || b` where `a` is a possibly-undefined string and `b` a string. -/
def jsOrOpt (a : Option String) (b : String) : String :=
  match a with
  | none => b
  | some s => if s = "" then b else s

/-- JS `a || b` where both sides are possibly-undefined strings. -/
def jsOrOpt2 (a b : Option String) : Option String :=
  match a with
  | none => b
  | some s => if s = "" then b else some s

/-- JS truthiness of a possibly-undefined string. -/
def jsTruthyS : Option String → Bool
  | none => false
  | some s => s ≠ ""

/-- JS truthiness of a possibly-undefined number. -/
def jsTruthyI : Option Int → Bool
  | none => false
  | some n => n ≠ 0

/-- JS `Math.round` (half-up) on an exact rational. -/
def jsMathRound (x : ℚ) : Int := ⌊x + 1 / 2⌋

/-! ## Webhook verifier & forwarder (`src/unnamed/part_001`) -/

/-- `session.customer_details` as read by the webhook handler:
`name`, `email`, and the `address.country` / `address.country_code`
fields (flattened here). -/
structure WCustomerDetails where
  name : Option String
  email : Option String
  addressCountry : Option String
  addressCountryCode : Option String
deriving DecidableEq, Repr

/-- A checkout session as read by the webhook handler. -/
structure WSession where
  id : String
  mode : String
  amount_total : Option Int
  currency : Option String
  customer_details : Option WCustomerDetails
  metadata_prayer_request : Option String
deriving DecidableEq, Repr

/-- An invoice as read by the webhook handler. -/
structure WInvoice where
  id : String
  amount_paid : Option Int
  currency : Option String
  customer_email : Option String
  subscription : Option String
deriving DecidableEq, Repr

/-- `event.data.object`: a session, an invoice, or something else. -/
inductive WObj
  | session : WSession → WObj
  | invoice : WInvoice → WObj
  | other : WObj
deriving DecidableEq, Repr

/-- A (verified or body-parsed) Stripe event envelope. -/
structure WEvent where
  type : String
  id : String
  created : Int
  obj : WObj
deriving DecidableEq, Repr

/-- `event.data.object` accessed with checkout-session fields; on a
mismatched shape every field access yields the undefined-like default. -/
def sessionObjOf : WObj → WSession
  | .session s => s
  | _ => ⟨"", "", none, none, none, none⟩

/-- `event.data.object` accessed with invoice fields. -/
def invoiceObjOf : WObj → WInvoice
  | .invoice i => i
  | _ => ⟨"", none, none, none, none⟩

/-- part_001 lines 6-9: EXCLUDE_EMAILS =
`(env || "").split(",").map(trim+lower).filter(Boolean)`. -/
def parseExcludeEmails (v : Option String) : List String :=
  (((jsSplit ',' (v.getD "")).map (fun s => jsToLower (jsTrim s))).filter (· ≠ ""))

/-- part_001 lines 11-14: `isExcludedEmail(email)` - false on a falsy
email, otherwise membership of the lowercased email. -/
def wIsExcludedEmail (excludeEmails : List String) (email : Option String) : Bool :=
  match email with
  | none => false
  | some e => if e = "" then false else excludeEmails.contains (jsToLower e)

/-- part_001 lines 16-22: `displayNameFrom(details)` - the trimmed name if
truthy, else the email local part, else "Someone". -/
def displayNameFrom (details : Option WCustomerDetails) : String :=
  let nameTrimmed : String :=
    match details.bind (fun d => d.name) with
    | some n => jsTrim n
    | none => ""
  if nameTrimmed ≠ "" then nameTrimmed
  else
    let email := jsOrOpt (details.bind (fun d => d.email)) ""
    let localPart := ((jsSplit '@' email).headD "")
    if localPart ≠ "" then localPart else "Someone"

/-- part_001 line 26: the webhook file's zero-decimal currency list. -/
def wZeroDec : List String :=
  ["JPY", "KRW", "VND", "CLP", "XOF", "XAF", "KMF", "DJF", "GNF", "PYG", "RWF", "UGX", "VUV"]

/-- Result of part_001's `formatAmount`: `{ code, value }`. -/
structure AmountFmt where
  code : String
  value : ℚ
deriving DecidableEq, Repr

/-- part_001 lines 24-30: `formatAmount(minor, currency)` - `null` when
`minor` is not a number, otherwise the uppercased code and the value,
divided by 100 unless the code is zero-decimal. -/
def wFormatAmount (minor : Option Int) (currency : Option String) : Option AmountFmt :=
  match minor with
  | none => none
  | some m =>
    let code := jsToUpper (jsOrOpt currency "")
    some ⟨code, if wZeroDec.contains code then (m : ℚ) else (m : ℚ) / 100⟩

/-- part_001 lines 32-35: `zeroPad(v)` - round to cents then render via
`toLocaleString` (passed in as `localeFmt2`). -/
def zeroPad (localeFmt2 : ℚ → String) (v : ℚ) : String :=
  localeFmt2 ((jsMathRound (v * 100) : ℚ) / 100)

/-- part_001 lines 62-66: `signForward` - `null` without a forwarding
secret, else the hex HMAC-SHA256 of the body (primitive passed in). -/
def signForward (hmacHex : String → String → String) (secret : Option String)
    (bodyString : String) : Option String :=
  match secret with
  | none => none
  | some s => if s = "" then none else some (hmacHex s bodyString)

/-- part_001 line 135: the currency-symbol map used in `display_text`. -/
def symbolFor (code : String) : String :=
  if code = "USD" then "$"
  else if code = "EUR" then "€"
  else if code = "GBP" then "£"
  else if code = "JPY" then "¥"
  else if code = "KRW" then "₩"
  else ""

/-- part_001 lines 131-139: the `display_text` helper for checkout events. -/
def ckDisplayText (localeFmt2 : ℚ → String) (s : WSession) : Option String :=
  match wFormatAmount s.amount_total s.currency with
  | none => none
  | some amt =>
    let isSub := s.mode = "subscription"
    let sym := symbolFor amt.code
    let num := zeroPad localeFmt2 amt.value
    some (if isSub then "became a Partner (" ++ sym ++ num ++ "/mo)"
          else "just gave " ++ sym ++ num)

/-- part_001 lines 121-126: `customer_name_initials`. -/
def nameInitials (name : Option String) : String :=
  let words := jsSplit ' ' (jsOrOpt name "")
  ⟨(jsToUpper (String.join (words.map (fun w =>
      match w.data with
      | [] => ""
      | c :: _ => ⟨[c]⟩)))).data.take 3⟩

/-- The minimized `ForwardPayload` built for a checkout event
(part_001 lines 110-140; `event_id` is attached at line 151 just before
forwarding). -/
structure CkPayload where
  event_type : String
  session_id : String
  created : Int
  mode : String
  is_subscription : Bool
  amount_total : Option Int
  currency : String
  display_name : String
  customer_email_hash : String
  customer_name_initials : String
  country : Option String
  prayer_request : String
  display_text : Option String
  event_id : Option String
deriving DecidableEq, Repr

/-- part_001 lines 110-140: build the checkout `ForwardPayload`. -/
def buildCkPayload (sha : String → String) (localeFmt2 : ℚ → String)
    (evt : WEvent) (s : WSession) : CkPayload :=
  { event_type := evt.type
    session_id := s.id
    created := evt.created
    mode := s.mode
    is_subscription := s.mode = "subscription"
    amount_total := s.amount_total
    currency := jsToUpper (jsOrOpt s.currency "")
    display_name := displayNameFrom s.customer_details
    customer_email_hash := sha (jsOrOpt (s.customer_details.bind (fun d => d.email)) "")
    customer_name_initials := nameInitials (s.customer_details.bind (fun d => d.name))
    country := jsOrOpt2 (s.customer_details.bind (fun d => d.addressCountry))
      (jsOrOpt2 (s.customer_details.bind (fun d => d.addressCountryCode)) none)
    prayer_request := jsOrOpt s.metadata_prayer_request ""
    display_text := ckDisplayText localeFmt2 s
    event_id := none }

/-- The minimized payload built for an invoice event
(part_001 lines 179-187). -/
structure InvPayload where
  event_type : String
  invoice_id : String
  created : Int
  amount_paid : Option Int
  currency : String
  customer_email_hash : String
  subscription : Option String
  event_id : Option String
deriving DecidableEq, Repr

/-- part_001 lines 179-187: build the invoice payload. -/
def buildInvPayload (sha : String → String) (evt : WEvent) (i : WInvoice) : InvPayload :=
  { event_type := evt.type
    invoice_id := i.id
    created := evt.created
    amount_paid := i.amount_paid
    currency := jsToUpper (jsOrOpt i.currency "")
    customer_email_hash := sha (jsOrOpt i.customer_email "")
    subscription := jsOrOpt2 i.subscription none
    event_id := none }

/-- One outbound forwarding POST: target URL, exact serialized body, and
the optional `X-Forward-Signature` header. -/
structure ForwardAttempt where
  url : String
  bodyString : String
  signature : Option String
deriving DecidableEq, Repr

/-- Outcome of the outbound `fetch`: `ok`/status/text of the response. -/
structure FetchResp where
  ok : Bool
  status : Nat
  text : String
deriving DecidableEq, Repr

/-- part_001 lines 163-167 and 203-205: what a forwarding attempt logs -
a network error, or the status of a non-2xx response; nothing on success. -/
def forwardLog (r : Except String FetchResp) : List String :=
  match r with
  | .error e => ["Zapier forward error " ++ e]
  | .ok resp => if resp.ok then [] else ["Zapier forward failed " ++ toString resp.status]

/-- HTTP response bodies the webhook handler can produce. -/
inductive WhBody
  | okProbe
  | methodNotAllowed
  | webhookError (msg : String)
  | received
  | receivedSkipped (reason : String)
  | receivedWarn
deriving DecidableEq, Repr

/-- `received:true` appears in the body (200-family acknowledgements). -/
def WhBody.receivedTrue : WhBody → Bool
  | .received => true
  | .receivedSkipped _ => true
  | .receivedWarn => true
  | _ => false

/-- Observable outcome of one webhook request: HTTP status and body, the
payloads constructed, the forwarding POSTs attempted, and what the
forwarding path logged. -/
structure WhResult where
  status : Nat
  body : WhBody
  builtCheckout : List CkPayload
  builtInvoice : List InvPayload
  forwards : List ForwardAttempt
  forwardLogs : List String
deriving DecidableEq, Repr

/-- The webhook handler's environment variables. -/
structure WhEnv where
  webhookSecret : Option String
  zapierHookUrl : Option String
  forwardHmacSecret : Option String
  excludeEmails : Option String
  forwardInvoicePaid : Option String
deriving DecidableEq, Repr

/-- One inbound webhook request: method, `stripe-signature` header, the
raw byte body, and the platform-parsed body (used only in degraded mode). -/
structure WhReq where
  method : String
  sigHeader : Option String
  rawBody : List Nat
  parsedBody : Option WEvent
deriving DecidableEq, Repr

/-- part_001 lines 98-219 (the processing `try` block) for one event.
`fetchRes` is the outcome of the outbound `fetch` when one is attempted;
the fetch is wrapped in its own `try`/`catch`, so its outcome reaches only
the logs, never the HTTP response. -/
def processEvent (env : WhEnv) (sha : String → String) (hmacHex : String → String → String)
    (stringifyCk : CkPayload → String) (stringifyInv : InvPayload → String)
    (localeFmt2 : ℚ → String) (fetchRes : Except String FetchResp)
    (event : WEvent) : WhResult :=
  if event.type = "checkout.session.completed" then
    let s := sessionObjOf event.obj
    if wIsExcludedEmail (parseExcludeEmails env.excludeEmails)
        (s.customer_details.bind (fun d => d.email)) then
      ⟨200, .receivedSkipped "excluded_email", [], [], [], []⟩
    else
      let payload := buildCkPayload sha localeFmt2 event s
      match env.zapierHookUrl with
      | some url =>
        if url ≠ "" then
          let p2 := { payload with event_id := some event.id }
          let bodyString := stringifyCk p2
          let sigOpt := signForward hmacHex env.forwardHmacSecret bodyString
          ⟨200, .received, [payload], [], [⟨url, bodyString, sigOpt⟩], forwardLog fetchRes⟩
        else ⟨200, .received, [payload], [], [], []⟩
      | none => ⟨200, .received, [payload], [], [], []⟩
  else if event.type = "invoice.paid" then
    if jsToLower (jsOrOpt env.forwardInvoicePaid "on") = "off" then
      ⟨200, .receivedSkipped "invoice_forward_off", [], [], [], []⟩
    else
      let i := invoiceObjOf event.obj
      let payload := buildInvPayload sha event i
      match env.zapierHookUrl with
      | some url =>
        if url ≠ "" then
          let p2 := { payload with event_id := some event.id }
          let bodyString := stringifyInv p2
          let sigOpt := signForward hmacHex env.forwardHmacSecret bodyString
          ⟨200, .received, [], [payload], [⟨url, bodyString, sigOpt⟩], forwardLog fetchRes⟩
        else ⟨200, .received, [], [payload], [], []⟩
      | none => ⟨200, .received, [], [payload], [], []⟩
  else ⟨200, .received, [], [], [], []⟩

/-- part_001 lines 78-96: obtain the event.  With a truthy secret the
event comes from `stripe.webhooks.constructEvent` over the raw bytes
(`constructEvent` throws = `.error`); without one the handler degrades to
the platform-parsed body (possibly absent). -/
def verifyPhase (env : WhEnv)
    (constructEvent : List Nat → Option String → String → Except String WEvent)
    (req : WhReq) : Except String (Option WEvent) :=
  match env.webhookSecret with
  | none => .ok req.parsedBody
  | some sec =>
    if sec = "" then .ok req.parsedBody
    else
      match constructEvent req.rawBody req.sigHeader sec with
      | .ok e => .ok (some e)
      | .error m => .error m

/-- part_001 lines 68-220: the webhook handler.  A GET is a liveness
probe; other non-POST methods get 405; a verification failure gets 400
with `Webhook Error: <reason>`; a degraded request with an unparseable
body throws inside the processing `try` and is answered 200 with a
warning note; otherwise the event is processed. -/
def webhookHandler (env : WhEnv)
    (constructEvent : List Nat → Option String → String → Except String WEvent)
    (sha : String → String) (hmacHex : String → String → String)
    (stringifyCk : CkPayload → String) (stringifyInv : InvPayload → String)
    (localeFmt2 : ℚ → String) (fetchRes : Except String FetchResp)
    (req : WhReq) : WhResult :=
  if req.method = "GET" then ⟨200, .okProbe, [], [], [], []⟩
  else if req.method ≠ "POST" then ⟨405, .methodNotAllowed, [], [], [], []⟩
  else
    match verifyPhase env constructEvent req with
    | .error msg => ⟨400, .webhookError ("Webhook Error: " ++ msg), [], [], [], []⟩
    | .ok none => ⟨200, .receivedWarn, [], [], [], []⟩
    | .ok (some event) =>
      processEvent env sha hmacHex stringifyCk stringifyInv localeFmt2 fetchRes event

/-! ## Recent-donations feed, sessions-based version
(`src/api/public-recent-donations.js` lines 180-349, "v2") -/

/-- `session.customer_details` as read by the feed handlers. -/
structure FCustomer where
  name : Option String
  email : Option String
deriving DecidableEq, Repr

/-- A checkout session as read by the v2 feed handler. -/
structure FSession where
  id : String
  payment_status : String
  customer_details : Option FCustomer
  metadata_public_consent : Option String
  payment_intent : Option String
  mode : String
  amount_total : Option Int
  amount_subtotal : Option Int
  currency : Option String
  created : Option Nat
deriving DecidableEq, Repr

/-- One entry of the public feed: `{name, text, ts}`. -/
structure FeedItem where
  name : String
  text : String
  ts : Nat
deriving DecidableEq, Repr

/-- v2 lines 214-221: `parseCsvSet` - empty on a falsy value, otherwise
the comma-split, trimmed, lowercased, non-empty entries. -/
def parseCsvSet (v : Option String) : List String :=
  match v with
  | none => []
  | some s =>
    if s = "" then []
    else ((jsSplit ',' s).map (fun t => jsToLower (jsTrim t))).filter (· ≠ "")

/-- v2 line 225: `SHOW_ALL_FOR_TEST` is on iff the env value lowercases
to exactly "true". -/
def showAllForTest (v : Option String) : Bool := jsToLower (jsOrOpt v "") = "true"

/-- v2 lines 228-230 (and v1 lines 9-11, the identical list): the feed's
zero-decimal currency set. -/
def ZERO_DEC : List String :=
  ["BIF", "CLP", "DJF", "GNF", "JPY", "KMF", "KRW", "MGA", "PYG", "RWF", "UGX",
   "VND", "VUV", "XAF", "XOF", "XPF"]

/-- v2 lines 261-269 (value part): the uppercased code, the numeric value
(minor units taken whole for zero-decimal currencies, divided by 100
otherwise), and the `maximumFractionDigits` handed to `Intl.NumberFormat`. -/
def formatAmountCore (minor : Int) (currency : String) : String × ℚ × Nat :=
  let c := jsToUpper (jsOr currency "USD")
  (c, if ZERO_DEC.contains c then (minor : ℚ) else (minor : ℚ) / 100,
   if ZERO_DEC.contains c then 0 else 2)

/-- v2 lines 261-269: `formatAmount`, with the `Intl.NumberFormat`
rendering passed in as `fmt code value maxFractionDigits`. -/
def formatAmount (fmt : String → ℚ → Nat → String) (minor : Int) (currency : String) : String :=
  fmt (formatAmountCore minor currency).1 (formatAmountCore minor currency).2.1
    (formatAmountCore minor currency).2.2

/-- The characters the v2 `displayName` replaces with spaces:
the regex class `[._-]`. -/
def isSepChar (c : Char) : Bool := c = '.' || c = '_' || c = '-'

/-- `replace(/[._-]+/g, " ")`: each maximal run of separator characters
becomes a single space.  The flag records whether the previous character
was part of such a run. -/
def sepRunsGo : Bool → List Char → List Char
  | _, [] => []
  | inRun, c :: rest =>
    if isSepChar c then
      if inRun then sepRunsGo true rest else ' ' :: sepRunsGo true rest
    else c :: sepRunsGo false rest

/-- JS `s.charAt(0).toUpperCase() + s.slice(1)`. -/
def capToken (s : String) : String :=
  match s.data with
  | [] => ""
  | c :: rest => ⟨c.toUpper :: rest⟩

/-- JS `array.join(" ")`. -/
def joinSp : List String → String
  | [] => ""
  | [x] => x
  | x :: y :: ys => x ++ " " ++ joinSp (y :: ys)

/-- v2 lines 245-259: `displayName(name, email)` - the trimmed customer
name if truthy; else the email local part with separator runs replaced by
spaces, split on spaces, each token capitalized and all of them joined;
else "Someone". -/
def displayName (name : Option String) (email : String) : String :=
  let n := jsTrim (jsOrOpt name "")
  if n ≠ "" then n
  else
    let e := jsTrim (jsOr email "")
    if e ≠ "" then
      let localPart := (jsSplit '@' e).headD ""
      let toks := ((jsSplit ' ' (⟨sepRunsGo false localPart.data⟩ : String)).filter
        (· ≠ "")).map capToken
      let pretty := joinSp toks
      if pretty ≠ "" then pretty else "Someone"
    else "Someone"

/-- v2 lines 271-274: the feed's `isExcludedEmail` - false on an empty
email, otherwise membership of the lowercased email in the parsed set. -/
def isExcludedEmail (excludeSet : List String) (email : String) : Bool :=
  if email = "" then false else excludeSet.contains (jsToLower email)

/-- v2 line 307: `s.customer_details?.email || ""`. -/
def sessionEmail (s : FSession) : String :=
  jsOrOpt (s.customer_details.bind (fun c => c.email)) ""

/-- v2 line 311: `String(s.metadata?.public_consent || "").toLowerCase()`. -/
def sessionConsent (s : FSession) : String :=
  jsToLower (jsOrOpt s.metadata_public_consent "")

/-- v2 line 316: the de-dupe key `s.payment_intent || s.id`. -/
def dedupKey (s : FSession) : String := jsOrOpt s.payment_intent s.id

/-- Why the v2 loop body (lines 303-318) accepts or skips one session. -/
inductive Verdict
  | limitReached
  | notPaid
  | excludedEmail
  | noConsent
  | dupOrNoKey
  | accept
deriving DecidableEq, Repr

/-- v2 lines 303-318: the per-candidate decision, checks in source order:
break once `limit` items exist; skip unpaid sessions; skip excluded
emails; skip missing consent unless `SHOW_ALL_FOR_TEST`; skip a falsy or
already-seen de-dupe key; otherwise accept. -/
def candidateVerdict (excludeSet : List String) (showAll : Bool) (limit count : Nat)
    (seen : List String) (s : FSession) : Verdict :=
  if limit ≤ count then .limitReached
  else if s.payment_status ≠ "paid" then .notPaid
  else if isExcludedEmail excludeSet (sessionEmail s) then .excludedEmail
  else if showAll = false ∧ sessionConsent s ≠ "true" then .noConsent
  else if dedupKey s = "" ∨ seen.contains (dedupKey s) then .dupOrNoKey
  else .accept

/-- v2 lines 301-336, acceptance part of the loop: which sessions make it
into `items`, in order.  Item construction (lines 320-332) has no effect
on the loop state (`seen` and the item count), so the loop is split into
this acceptance scan followed by `mkFeedItem` mapped over the result. -/
def feedAccept (excludeSet : List String) (showAll : Bool) (limit : Nat) :
    List FSession → List String → Nat → List FSession
  | [], _, _ => []
  | s :: rest, seen, count =>
    match candidateVerdict excludeSet showAll limit count seen s with
    | .limitReached => []
    | .accept => s :: feedAccept excludeSet showAll limit rest (dedupKey s :: seen) (count + 1)
    | _ => feedAccept excludeSet showAll limit rest seen count

/-- v2 lines 320-332: build the feed item for an accepted session.
`now` is `Math.floor(Date.now() / 1000)`, used when `created` is falsy. -/
def mkFeedItem (fmt : String → ℚ → Nat → String) (now : Nat) (s : FSession) : FeedItem :=
  let email := sessionEmail s
  let name := displayName (s.customer_details.bind (fun c => c.name)) email
  let amountMinor := (s.amount_total.orElse (fun _ => s.amount_subtotal)).getD 0
  let currency := jsOrOpt s.currency "USD"
  let text :=
    if s.mode = "subscription" then
      name ++ " became a Partner (" ++ formatAmount fmt amountMinor currency ++ "/mo)"
    else
      name ++ " just gave " ++ formatAmount fmt amountMinor currency
  let ts :=
    match s.created with
    | some c => if c ≠ 0 then c else now
    | none => now
  ⟨name, text, ts⟩

/-- Insert into a list that is sorted by `ts` descending, before the first
element with a `ts` not larger - the unique placement a stable sort gives
an element that precedes the rest (JS `Array.prototype.sort` is stable). -/
def insTsDesc (x : FeedItem) : List FeedItem → List FeedItem
  | [] => [x]
  | y :: ys => if y.ts ≤ x.ts then x :: y :: ys else y :: insTsDesc x ys

/-- `items.sort((a, b) => b.ts - a.ts)`: stable sort, newest first
(v2 line 339 and v1 line 173). -/
def sortTsDesc : List FeedItem → List FeedItem
  | [] => []
  | x :: xs => insTsDesc x (sortTsDesc xs)

/-- The single-digit-char test used by the `parseInt` model. -/
def isDigitCh (c : Char) : Bool :=
  c = '0' || c = '1' || c = '2' || c = '3' || c = '4' || c = '5' || c = '6' ||
  c = '7' || c = '8' || c = '9'

/-- Base-10 value of a digit-character list. -/
def digitsVal (l : List Char) : Nat := l.foldl (fun a c => a * 10 + (c.toNat - 48)) 0

/-- JS `parseInt(s, 10)`: skip leading whitespace, optional sign, longest
digit prefix; `NaN` (here `none`) when no digits follow. -/
def jsParseInt10 (s : String) : Option Int :=
  match s.data.dropWhile Char.isWhitespace with
  | [] => none
  | c :: r =>
    let su : Int × List Char :=
      if c = '-' then (-1, r) else if c = '+' then (1, r) else (1, c :: r)
    let ds := su.2.takeWhile isDigitCh
    if ds = [] then none else some (su.1 * (digitsVal ds : Int))

/-- v2 lines 283-291: the effective limit - `parseInt` the `limit`
parameter (absent or empty falls back to "10"), clamp finite values into
[1, 50], keep the default 10 otherwise. -/
def effectiveLimit (limitParam : Option String) : Nat :=
  match jsParseInt10 (jsOrOpt limitParam "10") with
  | some v => (max 1 (min v 50)).toNat
  | none => 10

/-- The feed handlers' HTTP response bodies. -/
inductive FeedBody
  | items (l : List FeedItem)
  | error (msg : String)
  | empty
deriving DecidableEq, Repr

/-- Observable outcome of one feed request: status, body, and what the
error path logged. -/
structure FeedResp where
  status : Nat
  body : FeedBody
  logs : List String
deriving DecidableEq, Repr

/-- The items carried by a feed response body (empty for non-item bodies). -/
def FeedBody.itemsOf : FeedBody → List FeedItem
  | .items l => l
  | _ => []

/-- v2 lines 276-349: the sessions-based feed handler.  `upstream` is the
outcome of `stripe.checkout.sessions.list({limit: 50})`; an upstream
error reaches the `catch` and is answered 500 with a generic message. -/
def feedHandler2 (excludeCsv showAllEnv : Option String) (fmt : String → ℚ → Nat → String)
    (now : Nat) (method : String) (limitParam : Option String)
    (upstream : Except String (List FSession)) : FeedResp :=
  if method = "OPTIONS" then ⟨204, .empty, []⟩
  else if method ≠ "GET" then ⟨405, .error "Method not allowed", []⟩
  else
    let limit := effectiveLimit limitParam
    match upstream with
    | .error e => ⟨500, .error "Internal server error", [e]⟩
    | .ok sessions =>
      let accepted := feedAccept (parseCsvSet excludeCsv) (showAllForTest showAllEnv)
        limit sessions [] 0
      ⟨200, .items ((sortTsDesc (accepted.map (mkFeedItem fmt now))).take limit), []⟩

/-! ## Recent-donations feed, events-based version
(`src/api/public-recent-donations.js` lines 1-179, "v1") -/

/-- One entry of `s.display_items` as read by the v1 subscription
fallback. -/
structure DispItem where
  amount : Option Int
  currency : Option String
deriving DecidableEq, Repr

/-- A checkout session as read by the v1 handler. -/
structure Sess1 where
  mode : String
  subscription : Option String
  customer_details : Option FCustomer
  customer_email : Option String
  currency : Option String
  amount_total : Option Int
  amount_subtotal : Option Int
  display_items : List DispItem
deriving DecidableEq, Repr

/-- `sub.items?.data?.[0]?.price` as read by the v1 handler. -/
structure Price1 where
  recurring_interval : Option String
  currency : Option String
  unit_amount : Option Int
deriving DecidableEq, Repr

/-- A retrieved subscription (only its first price is read). -/
structure Sub1 where
  price : Option Price1
deriving DecidableEq, Repr

/-- A payment intent as read by the v1 handler (the first charge's
billing email is flattened into `charge_email`). -/
structure PI1 where
  receipt_email : Option String
  charge_email : Option String
  amount_received : Option Int
  amount : Option Int
  currency : Option String
deriving DecidableEq, Repr

/-- `event.data.object` for the v1 handler. -/
inductive EvtObj1
  | sess : Sess1 → EvtObj1
  | pi : PI1 → EvtObj1
  | inv : EvtObj1
  | other : EvtObj1
deriving DecidableEq, Repr

/-- A Stripe event as listed by `stripe.events.list` for v1. -/
structure Event1 where
  type : String
  created : Nat
  obj : EvtObj1
deriving DecidableEq, Repr

/-- `event.data.object` accessed with v1 session fields. -/
def sess1Of : EvtObj1 → Sess1
  | .sess s => s
  | _ => ⟨"", none, none, none, none, none, none, []⟩

/-- `event.data.object` accessed with payment-intent fields. -/
def pi1Of : EvtObj1 → PI1
  | .pi p => p
  | _ => ⟨none, none, none, none, none⟩

/-- v1 lines 24-33: `nameFromEmail` - "Someone" on a falsy email;
otherwise keep only `[a-zA-Z.\-_\s]` characters of the local part
(each other character becomes a space), split on separator/whitespace
runs, drop empties (`split(/[._\-\s]+/)` plus `filter(Boolean)` is split
on the single characters with empty segments dropped), and return the
capitalized first token plus the uppercased initial of the second. -/
def nameFromEmail (email : Option String) : String :=
  match email with
  | none => "Someone"
  | some e =>
    if e = "" then "Someone"
    else
      let localPart := jsOr ((jsSplit '@' e).headD "") ""
      let cleaned := localPart.data.map (fun c =>
        if c.isAlpha || isSepChar c || c.isWhitespace then c else ' ')
      let parts := (splitChP (fun c => isSepChar c || c.isWhitespace) cleaned).filter (· ≠ [])
      match parts with
      | [] => "Someone"
      | first :: restParts =>
        let lastInitial :=
          match restParts with
          | (c :: _) :: _ => (⟨[c.toUpper]⟩ : String) ++ "."
          | _ => ""
        capToken ⟨first⟩ ++ (if lastInitial ≠ "" then " " ++ lastInitial else "")

/-- Arguments of the v1 `buildItem` (lines 35-53). -/
structure BuildArgs where
  email : Option String
  amount : Int
  currency : String
  type : String
  created : Nat
  interval : Option String
deriving DecidableEq, Repr

/-- v1 lines 35-53: `buildItem` - derive the name from the email, render
the amount (v1 lines 13-22 compute the same code/value/fraction-digits
as `formatAmountCore`), and produce the templated sentence;
`ts = floor(created * 1000 / 1000) = created`. -/
def buildItem1 (fmt : String → ℚ → Nat → String) (a : BuildArgs) : FeedItem :=
  let name := nameFromEmail a.email
  if a.type = "subscription" then
    let amt := formatAmount fmt a.amount a.currency
    let label := if a.interval = some "month" then "mo" else jsOrOpt a.interval "mo"
    ⟨name, name ++ " became a Partner (" ++ amt ++ "/" ++ label ++ ")", a.created⟩
  else
    ⟨name, name ++ " just gave " ++ formatAmount fmt a.amount a.currency, a.created⟩

/-- v1 lines 67-170: the items one event contributes.  `retrieveSub` is
`stripe.subscriptions.retrieve`; if it throws, the per-event `catch`
(lines 166-169) drops the whole event.  The `invoice.paid` arm
(lines 144-161) is a no-op: its body is commented out in the source. -/
def itemsOfEvent1 (fmt : String → ℚ → Nat → String)
    (retrieveSub : String → Except Unit Sub1) (evt : Event1) : List FeedItem :=
  if evt.type = "checkout.session.completed" then
    let s := sess1Of evt.obj
    let isSub := s.mode = "subscription" || jsTruthyS s.subscription
    let customerEmail := jsOrOpt2 (s.customer_details.bind (fun c => c.email)) s.customer_email
    if isSub then
      let fetched : Except Unit (Option Sub1) :=
        match s.subscription with
        | some sid => if sid ≠ "" then (retrieveSub sid).map some else .ok none
        | none => .ok none
      match fetched with
      | .error _ => []
      | .ok subOpt =>
        let base : Option Int × String × String :=
          match subOpt with
          | some sub =>
            match sub.price with
            | some price =>
              (price.unit_amount,
               jsOrOpt price.currency (jsOrOpt s.currency "USD"),
               jsOrOpt price.recurring_interval "month")
            | none => (none, jsOrOpt s.currency "USD", "month")
          | none => (none, jsOrOpt s.currency "USD", "month")
        let withFallback : Option Int × String :=
          match base.1 with
          | some a => (some a, base.2.1)
          | none =>
            match s.display_items.head? with
            | some line =>
              if jsTruthyI line.amount && jsTruthyS line.currency then
                (line.amount, jsOrOpt line.currency "")
              else (none, base.2.1)
            | none => (none, base.2.1)
        match withFallback.1 with
        | some amt =>
          [buildItem1 fmt ⟨customerEmail, amt, withFallback.2, "subscription",
            evt.created, some base.2.2⟩]
        | none => []
    else
      match s.amount_total.orElse (fun _ => s.amount_subtotal) with
      | some amt =>
        [buildItem1 fmt ⟨customerEmail, amt, jsOrOpt s.currency "USD", "payment",
          evt.created, none⟩]
      | none => []
  else if evt.type = "payment_intent.succeeded" then
    let p := pi1Of evt.obj
    [buildItem1 fmt ⟨jsOrOpt2 p.receipt_email p.charge_email,
      ((p.amount_received.orElse (fun _ => p.amount)).getD 0),
      jsOrOpt p.currency "USD", "payment", evt.created, none⟩]
  else []

/-- v1 lines 55-180: the events-based feed handler.  `upstream` is the
outcome of `stripe.events.list({limit: 50})`; an upstream error reaches
the `catch` (lines 176-179) and is answered 500 with an empty items list. -/
def feedHandler1 (fmt : String → ℚ → Nat → String)
    (retrieveSub : String → Except Unit Sub1)
    (upstream : Except String (List Event1)) : FeedResp :=
  match upstream with
  | .error e => ⟨500, .items [], [e]⟩
  | .ok evts =>
    let items := evts.foldr (fun e acc => itemsOfEvent1 fmt retrieveSub e ++ acc) []
    ⟨200, .items ((sortTsDesc items).take 10), []⟩

/-! ## Helper lemmas -/

/-- Every entry of a parsed exclusion list is non-empty. -/
theorem mem_parseExcludeEmails_ne_empty {v : Option String} {x : String}
    (h : x ∈ parseExcludeEmails v) : x ≠ "" := by
  have := List.of_mem_filter h
  simpa using this

/-- Processing a verified event always acknowledges with a 200 whose body
carries `received:true`. -/
theorem processEvent_acks (env : WhEnv) (sha : String → String)
    (hmacHex : String → String → String) (stringifyCk : CkPayload → String)
    (stringifyInv : InvPayload → String) (localeFmt2 : ℚ → String)
    (fetchRes : Except String FetchResp) (event : WEvent) :
    (processEvent env sha hmacHex stringifyCk stringifyInv localeFmt2 fetchRes event).status = 200 ∧
    (processEvent env sha hmacHex stringifyCk stringifyInv localeFmt2 fetchRes
      event).body.receivedTrue = true := by
  unfold processEvent
  dsimp only
  repeat' split
  all_goals simp [WhBody.receivedTrue]

/-- The outcome of the forwarding `fetch` influences nothing observable
about event processing except the forwarding logs. -/
theorem processEvent_fetch_independent (env : WhEnv) (sha : String → String)
    (hmacHex : String → String → String) (stringifyCk : CkPayload → String)
    (stringifyInv : InvPayload → String) (localeFmt2 : ℚ → String)
    (f1 f2 : Except String FetchResp) (event : WEvent) :
    (processEvent env sha hmacHex stringifyCk stringifyInv localeFmt2 f1 event).status =
      (processEvent env sha hmacHex stringifyCk stringifyInv localeFmt2 f2 event).status ∧
    (processEvent env sha hmacHex stringifyCk stringifyInv localeFmt2 f1 event).body =
      (processEvent env sha hmacHex stringifyCk stringifyInv localeFmt2 f2 event).body ∧
    (processEvent env sha hmacHex stringifyCk stringifyInv localeFmt2 f1 event).builtCheckout =
      (processEvent env sha hmacHex stringifyCk stringifyInv localeFmt2 f2 event).builtCheckout ∧
    (processEvent env sha hmacHex stringifyCk stringifyInv localeFmt2 f1 event).builtInvoice =
      (processEvent env sha hmacHex stringifyCk stringifyInv localeFmt2 f2 event).builtInvoice ∧
    (processEvent env sha hmacHex stringifyCk stringifyInv localeFmt2 f1 event).forwards =
      (processEvent env sha hmacHex stringifyCk stringifyInv localeFmt2 f2 event).forwards := by
  unfold processEvent
  dsimp only
  repeat' split
  all_goals simp

/-! ## Claim theorems: webhook (C1-C3) -/

/-- C1: for every inbound webhook POST processed with a configured
(truthy) verification secret, if `stripe.webhooks.constructEvent` over
the raw byte body throws - bad signature, malformed payload, or
mismatched secret all surface this way - the handler answers HTTP 400
with the human-readable `Webhook Error: <reason>` body, builds no
payload, and attempts no forwarding call. -/
theorem c1_verify_failure_rejects_400 (env : WhEnv)
    (constructEvent : List Nat → Option String → String → Except String WEvent)
    (sha : String → String) (hmacHex : String → String → String)
    (stringifyCk : CkPayload → String) (stringifyInv : InvPayload → String)
    (localeFmt2 : ℚ → String) (fetchRes : Except String FetchResp) (req : WhReq)
    (sec msg : String) (hm : req.method = "POST") (hs : env.webhookSecret = some sec)
    (hsec : sec ≠ "") (hv : constructEvent req.rawBody req.sigHeader sec = .error msg) :
    webhookHandler env constructEvent sha hmacHex stringifyCk stringifyInv localeFmt2
      fetchRes req =
      ⟨400, .webhookError ("Webhook Error: " ++ msg), [], [], [], []⟩ := by
  simp [webhookHandler, verifyPhase, hm, hs, hsec, hv]

/-- Closed witness for C1: a concrete POST whose signature check throws
is answered 400 with no processing and no forwarding. -/
theorem c1_witness :
    webhookHandler ⟨some "whsec_test", some "https://hooks.example", some "fwd", none, none⟩
      (fun _ _ _ => .error "No signatures found matching the expected signature for payload")
      (fun _ => "h") (fun _ _ => "m") (fun _ => "{}") (fun _ => "{}") (fun _ => "1.00")
      (.ok ⟨true, 200, ""⟩) ⟨"POST", some "t=1,v1=deadbeef", [123, 125], none⟩ =
      ⟨400, .webhookError
        ("Webhook Error: " ++ "No signatures found matching the expected signature for payload"),
        [], [], [], []⟩ :=
  c1_verify_failure_rejects_400 _ _ _ _ _ _ _ _ _ _ _ rfl rfl (by decide) rfl

/-- C2: once the event is obtained - by successful signature verification
over the raw bytes, or accepted from the parsed body in degraded
no-secret mode - the handler's response is HTTP 200 with a
`received:true` body, and the outcome of the optional downstream
forwarding call (network error, timeout, or non-2xx response alike)
changes nothing about the response, the payloads built, or the
forwarding attempts: it reaches only the logs. -/
theorem c2_ack_200_regardless_of_forwarding (env : WhEnv)
    (constructEvent : List Nat → Option String → String → Except String WEvent)
    (sha : String → String) (hmacHex : String → String → String)
    (stringifyCk : CkPayload → String) (stringifyInv : InvPayload → String)
    (localeFmt2 : ℚ → String) (fetchRes : Except String FetchResp) (req : WhReq)
    (evt : WEvent) (hm : req.method = "POST")
    (hv : (∃ sec, env.webhookSecret = some sec ∧ sec ≠ "" ∧
             constructEvent req.rawBody req.sigHeader sec = .ok evt) ∨
          (jsTruthyS env.webhookSecret = false ∧ req.parsedBody = some evt)) :
    (webhookHandler env constructEvent sha hmacHex stringifyCk stringifyInv localeFmt2
        fetchRes req).status = 200 ∧
    (webhookHandler env constructEvent sha hmacHex stringifyCk stringifyInv localeFmt2
        fetchRes req).body.receivedTrue = true ∧
    ∀ fetchRes' : Except String FetchResp,
      (webhookHandler env constructEvent sha hmacHex stringifyCk stringifyInv localeFmt2
          fetchRes' req).status =
        (webhookHandler env constructEvent sha hmacHex stringifyCk stringifyInv localeFmt2
          fetchRes req).status ∧
      (webhookHandler env constructEvent sha hmacHex stringifyCk stringifyInv localeFmt2
          fetchRes' req).body =
        (webhookHandler env constructEvent sha hmacHex stringifyCk stringifyInv localeFmt2
          fetchRes req).body ∧
      (webhookHandler env constructEvent sha hmacHex stringifyCk stringifyInv localeFmt2
          fetchRes' req).forwards =
        (webhookHandler env constructEvent sha hmacHex stringifyCk stringifyInv localeFmt2
          fetchRes req).forwards := by
  have hverify : verifyPhase env constructEvent req = .ok (some evt) := by
    rcases hv with ⟨sec, hs, hsec, hok⟩ | ⟨hfalsy, hbody⟩
    · simp [verifyPhase, hs, hsec, hok]
    · match henv : env.webhookSecret with
      | none => simp [verifyPhase, henv, hbody]
      | some s =>
        have : s = "" := by
          by_contra hne
          rw [henv] at hfalsy
          simp [jsTruthyS] at hfalsy
          exact hne hfalsy
        simp [verifyPhase, henv, this, hbody]
  have hrun : ∀ fr : Except String FetchResp,
      webhookHandler env constructEvent sha hmacHex stringifyCk stringifyInv localeFmt2 fr req =
        processEvent env sha hmacHex stringifyCk stringifyInv localeFmt2 fr evt := by
    intro fr
    simp [webhookHandler, hm, hverify]
  refine ⟨?_, ?_, ?_⟩
  · rw [hrun]
    exact (processEvent_acks env sha hmacHex stringifyCk stringifyInv localeFmt2 fetchRes evt).1
  · rw [hrun]
    exact (processEvent_acks env sha hmacHex stringifyCk stringifyInv localeFmt2 fetchRes evt).2
  · intro fr'
    rw [hrun, hrun]
    have h := processEvent_fetch_independent env sha hmacHex stringifyCk stringifyInv localeFmt2
      fr' fetchRes evt
    exact ⟨h.1, h.2.1, h.2.2.2.2⟩

/-- Closed witness for C2: a concrete verified checkout event is answered
200 `received:true` even though the forwarding fetch errors out. -/
theorem c2_witness :
    (webhookHandler ⟨some "whsec_test", some "https://hooks.example", none, none, none⟩
        (fun _ _ _ => .ok ⟨"checkout.session.completed", "evt_1", 1700000000,
          .session ⟨"cs_1", "payment", some 500, some "usd",
            some ⟨some "Jo", some "jo@example.com", none, none⟩, none⟩⟩)
        (fun _ => "h") (fun _ _ => "m") (fun _ => "{}") (fun _ => "{}") (fun _ => "5.00")
        (.error "network timeout") ⟨"POST", some "t=1,v1=good", [123, 125], none⟩).status = 200 ∧
    (webhookHandler ⟨some "whsec_test", some "https://hooks.example", none, none, none⟩
        (fun _ _ _ => .ok ⟨"checkout.session.completed", "evt_1", 1700000000,
          .session ⟨"cs_1", "payment", some 500, some "usd",
            some ⟨some "Jo", some "jo@example.com", none, none⟩, none⟩⟩)
        (fun _ => "h") (fun _ _ => "m") (fun _ => "{}") (fun _ => "{}") (fun _ => "5.00")
        (.error "network timeout") ⟨"POST", some "t=1,v1=good", [123, 125],
          none⟩).body.receivedTrue = true :=
  ⟨(c2_ack_200_regardless_of_forwarding _ _ _ _ _ _ _ _ _ _ rfl
      (Or.inl ⟨"whsec_test", rfl, by decide, rfl⟩)).1,
   (c2_ack_200_regardless_of_forwarding _ _ _ _ _ _ _ _ _ _ rfl
      (Or.inl ⟨"whsec_test", rfl, by decide, rfl⟩)).2.1⟩

/-- C3: a verified `checkout.session.completed` event whose payer email
matches the configured exclusion set (lowercased comparison) is answered
with the success-with-skip body; no `ForwardPayload` is built and no
forwarding call is made. -/
theorem c3_excluded_email_skips (env : WhEnv)
    (constructEvent : List Nat → Option String → String → Except String WEvent)
    (sha : String → String) (hmacHex : String → String → String)
    (stringifyCk : CkPayload → String) (stringifyInv : InvPayload → String)
    (localeFmt2 : ℚ → String) (fetchRes : Except String FetchResp) (req : WhReq)
    (evt : WEvent) (s : WSession) (e sec : String)
    (hm : req.method = "POST") (hs : env.webhookSecret = some sec) (hsec : sec ≠ "")
    (hv : constructEvent req.rawBody req.sigHeader sec = .ok evt)
    (ht : evt.type = "checkout.session.completed") (hobj : evt.obj = .session s)
    (he : s.customer_details.bind (fun d => d.email) = some e)
    (hmem : jsToLower e ∈ parseExcludeEmails env.excludeEmails) :
    webhookHandler env constructEvent sha hmacHex stringifyCk stringifyInv localeFmt2
      fetchRes req =
      ⟨200, .receivedSkipped "excluded_email", [], [], [], []⟩ := by
  have hene : e ≠ "" := by
    intro hc
    subst hc
    exact mem_parseExcludeEmails_ne_empty hmem rfl
  have hexc : wIsExcludedEmail (parseExcludeEmails env.excludeEmails)
      (s.customer_details.bind (fun d => d.email)) = true := by
    rw [he]
    simp [wIsExcludedEmail, hene]
    exact hmem
  simp [webhookHandler, verifyPhase, hm, hs, hsec, hv, processEvent, ht, hobj,
    sessionObjOf, hexc]

/-- Closed witness for C3: a concrete verified checkout event whose payer
email is on the exclusion list (with differing case) is skipped. -/
theorem c3_witness :
    webhookHandler ⟨some "whsec_test", some "https://hooks.example", some "fwd",
        some "Skip@Example.com, other@example.com", none⟩
      (fun _ _ _ => .ok ⟨"checkout.session.completed", "evt_2", 1700000001,
        .session ⟨"cs_2", "payment", some 500, some "usd",
          some ⟨some "Sk", some "SKIP@example.COM", none, none⟩, none⟩⟩)
      (fun _ => "h") (fun _ _ => "m") (fun _ => "{}") (fun _ => "{}") (fun _ => "5.00")
      (.ok ⟨true, 200, ""⟩) ⟨"POST", some "t=1,v1=good", [123, 125], none⟩ =
      ⟨200, .receivedSkipped "excluded_email", [], [], [], []⟩ :=
  c3_excluded_email_skips _ _ _ _ _ _ _ _ _
    ⟨"checkout.session.completed", "evt_2", 1700000001,
      .session ⟨"cs_2", "payment", some 500, some "usd",
        some ⟨some "Sk", some "SKIP@example.COM", none, none⟩, none⟩⟩
    ⟨"cs_2", "payment", some 500, some "usd",
      some ⟨some "Sk", some "SKIP@example.COM", none, none⟩, none⟩
    "SKIP@example.COM" "whsec_test" rfl rfl (by decide) rfl rfl rfl rfl (by decide)

/-- `insTsDesc` is insertion: a permutation of consing. -/
theorem insTsDesc_perm (x : FeedItem) (l : List FeedItem) : (insTsDesc x l).Perm (x :: l) := by
  induction l with
  | nil => simp [insTsDesc]
  | cons y ys ih =>
    by_cases hle : y.ts ≤ x.ts
    · rw [insTsDesc, if_pos hle]
    · rw [insTsDesc, if_neg hle]
      exact List.Perm.trans (List.Perm.cons y ih) (List.Perm.swap x y ys)

/-- Inserting into a ts-descending-sorted list keeps it sorted. -/
theorem insTsDesc_pairwise (x : FeedItem) (l : List FeedItem)
    (h : l.Pairwise (fun a b => b.ts ≤ a.ts)) :
    (insTsDesc x l).Pairwise (fun a b => b.ts ≤ a.ts) := by
  induction l with
  | nil => simp [insTsDesc]
  | cons y ys ih =>
    rw [List.pairwise_cons] at h
    by_cases hle : y.ts ≤ x.ts
    · rw [insTsDesc, if_pos hle, List.pairwise_cons]
      refine ⟨?_, List.pairwise_cons.mpr h⟩
      intro z hz
      rcases List.mem_cons.mp hz with rfl | hz'
      · exact hle
      · exact le_trans (h.1 z hz') hle
    · rw [insTsDesc, if_neg hle, List.pairwise_cons]
      refine ⟨?_, ih h.2⟩
      intro z hz
      have hmem := (List.Perm.mem_iff (insTsDesc_perm x ys)).mp hz
      rcases List.mem_cons.mp hmem with rfl | hz'
      · omega
      · exact h.1 z hz'

/-- The stable ts-descending sort sorts. -/
theorem sortTsDesc_pairwise (l : List FeedItem) :
    (sortTsDesc l).Pairwise (fun a b => b.ts ≤ a.ts) := by
  induction l with
  | nil => simp [sortTsDesc]
  | cons x xs ih => exact insTsDesc_pairwise x (sortTsDesc xs) ih

/-- The stable ts-descending sort permutes its input. -/
theorem sortTsDesc_perm (l : List FeedItem) : (sortTsDesc l).Perm l := by
  induction l with
  | nil => simp [sortTsDesc]
  | cons x xs ih =>
    exact List.Perm.trans (insTsDesc_perm x (sortTsDesc xs)) (List.Perm.cons x ih)

/-- A digit character is not whitespace, not '-', and not '+'. -/
theorem isDigitCh_props {c : Char} (h : isDigitCh c = true) :
    c.isWhitespace = false ∧ c ≠ '-' ∧ c ≠ '+' := by
  simp only [isDigitCh, Bool.or_eq_true, decide_eq_true_eq] at h
  rcases h with ((((((((h | h) | h) | h) | h) | h) | h) | h) | h) | h <;> subst h <;>
    exact ⟨by decide, by decide, by decide⟩

/-- All-digit lists survive `takeWhile isDigitCh`. -/
theorem takeWhile_digits (l : List Char) (hall : ∀ c ∈ l, isDigitCh c = true) :
    l.takeWhile isDigitCh = l := by
  induction l with
  | nil => simp
  | cons c r ih =>
    rw [List.takeWhile_cons, hall c (List.mem_cons_self c r)]
    simp [ih (fun d hd => hall d (List.mem_cons.mpr (Or.inr hd)))]

/-- `effectiveLimit` on a pure-digit parameter is its base-10 value
clamped into [1, 50]. -/
theorem effectiveLimit_digits (str : String) (hne : str.data ≠ [])
    (hdig : ∀ c ∈ str.data, isDigitCh c = true) :
    effectiveLimit (some str) = max 1 (min (digitsVal str.data) 50) := by
  have hstr : str ≠ "" := fun hc => hne (by simp [hc])
  have hdrop : str.data.dropWhile Char.isWhitespace = str.data := by
    cases hd : str.data with
    | nil => simp
    | cons c r =>
      have hc := hdig c (by rw [hd]; exact List.mem_cons_self c r)
      rw [List.dropWhile_cons, (isDigitCh_props hc).1]
      simp
  have hparse : jsParseInt10 str = some (digitsVal str.data : Int) := by
    unfold jsParseInt10
    rw [hdrop]
    cases hd : str.data with
    | nil => exact absurd hd hne
    | cons c r =>
      have hc : isDigitCh c = true := hdig c (by rw [hd]; exact List.mem_cons_self c r)
      have hall : ∀ d ∈ c :: r, isDigitCh d = true := by
        intro d hdm
        exact hdig d (by rw [hd]; exact hdm)
      have hprops := isDigitCh_props hc
      dsimp only
      rw [if_neg hprops.2.1, if_neg hprops.2.2]
      dsimp only
      rw [takeWhile_digits _ hall]
      simp
  unfold effectiveLimit
  have : jsOrOpt (some str) "10" = str := by simp [jsOrOpt, hstr]
  rw [this, hparse]
  dsimp only
  omega

/-- Dropping while `p` skips a prefix that wholly satisfies `p`. -/
theorem dropWhile_append_all (p : Char → Bool) (ws t : List Char)
    (h : ∀ c ∈ ws, p c = true) :
    (ws ++ t).dropWhile p = t.dropWhile p := by
  induction ws with
  | nil => rfl
  | cons c r ih =>
    rw [List.cons_append, List.dropWhile_cons, h c (List.mem_cons_self c r)]
    simpa using ih (fun d hd => h d (List.mem_cons.mpr (Or.inr hd)))

/-- Taking while `p` swallows a prefix that wholly satisfies `p`. -/
theorem takeWhile_append_all (p : Char → Bool) (l t : List Char)
    (h : ∀ c ∈ l, p c = true) :
    (l ++ t).takeWhile p = l ++ t.takeWhile p := by
  induction l with
  | nil => rfl
  | cons c r ih =>
    rw [List.cons_append, List.takeWhile_cons, h c (List.mem_cons_self c r)]
    simpa using ih (fun d hd => h d (List.mem_cons.mpr (Or.inr hd)))

/-- `jsParseInt10` on a parameter of JS numeric shape - optional leading
whitespace, an optional single sign, a non-empty digit run, and a
remainder not starting with a digit (`parseInt` ignores it) - returns
the signed base-10 value of the digit run. -/
theorem jsParseInt10_decomposed (str : String) (ws sgn ds rest : List Char)
    (hdata : str.data = ws ++ sgn ++ ds ++ rest)
    (hws : ∀ c ∈ ws, c.isWhitespace = true)
    (hsgn : sgn = [] ∨ sgn = ['-'] ∨ sgn = ['+'])
    (hds : ∀ c ∈ ds, isDigitCh c = true) (hdne : ds ≠ [])
    (hrest : rest = [] ∨ ∃ c r', rest = c :: r' ∧ isDigitCh c = false) :
    jsParseInt10 str =
      some ((if sgn = ['-'] then -1 else 1) * (digitsVal ds : Int)) := by
  have htake : (ds ++ rest).takeWhile isDigitCh = ds := by
    rw [takeWhile_append_all isDigitCh ds rest hds]
    rcases hrest with rfl | ⟨c, r', rfl, hc⟩
    · simp
    · rw [List.takeWhile_cons, hc]
      simp
  obtain ⟨d, ds', rfl⟩ : ∃ d ds', ds = d :: ds' := by
    cases ds with
    | nil => exact absurd rfl hdne
    | cons d ds' => exact ⟨d, ds', rfl⟩
  have hd : isDigitCh d = true := hds d (List.mem_cons_self d ds')
  have hdp := isDigitCh_props hd
  unfold jsParseInt10
  rw [hdata, List.append_assoc, List.append_assoc,
    dropWhile_append_all Char.isWhitespace ws _ hws]
  rcases hsgn with rfl | rfl | rfl
  · rw [List.nil_append, List.cons_append, List.dropWhile_cons,
      if_neg (show ¬ d.isWhitespace = true from by simp [hdp.1])]
    dsimp only
    rw [if_neg hdp.2.1, if_neg hdp.2.2]
    dsimp only
    rw [← List.cons_append, htake]
    simp
  · rw [List.singleton_append, List.dropWhile_cons,
      if_neg (show ¬ ('-').isWhitespace = true from by decide)]
    dsimp only
    rw [if_pos rfl]
    dsimp only
    rw [htake]
    simp
  · rw [List.singleton_append, List.dropWhile_cons,
      if_neg (show ¬ ('+').isWhitespace = true from by decide)]
    dsimp only
    rw [if_neg (show ('+') ≠ '-' from by decide), if_pos rfl]
    dsimp only
    rw [htake]
    simp

/-- `jsParseInt10` on a parameter with no leading number - optional
whitespace, an optional single sign, and then either nothing or a
character that is not a digit (nor, without a sign, a sign or more
whitespace) - is `NaN` (`none`). -/
theorem jsParseInt10_non_numeric (str : String) (ws sgn rest : List Char)
    (hdata : str.data = ws ++ sgn ++ rest)
    (hws : ∀ c ∈ ws, c.isWhitespace = true)
    (hsgn : sgn = [] ∨ sgn = ['-'] ∨ sgn = ['+'])
    (hrest : rest = [] ∨ ∃ c r', rest = c :: r' ∧ isDigitCh c = false ∧
      (sgn = [] → c ≠ '-' ∧ c ≠ '+' ∧ c.isWhitespace = false)) :
    jsParseInt10 str = none := by
  unfold jsParseInt10
  rw [hdata, List.append_assoc, dropWhile_append_all Char.isWhitespace ws _ hws]
  rcases hsgn with rfl | rfl | rfl
  · rcases hrest with rfl | ⟨c, r', rfl, hcd, hcs⟩
    · simp
    · obtain ⟨h1, h2, h3⟩ := hcs rfl
      rw [List.nil_append, List.dropWhile_cons,
        if_neg (show ¬ c.isWhitespace = true from by simp [h3])]
      dsimp only
      rw [if_neg h1, if_neg h2]
      dsimp only
      rw [List.takeWhile_cons, hcd]
      simp
  · rw [List.singleton_append, List.dropWhile_cons,
      if_neg (show ¬ ('-').isWhitespace = true from by decide)]
    dsimp only
    rw [if_pos rfl]
    dsimp only
    rcases hrest with rfl | ⟨c, r', rfl, hcd, -⟩
    · simp
    · rw [List.takeWhile_cons, hcd]
      simp
  · rw [List.singleton_append, List.dropWhile_cons,
      if_neg (show ¬ ('+').isWhitespace = true from by decide)]
    dsimp only
    rw [if_neg (show ('+') ≠ '-' from by decide), if_pos rfl]
    dsimp only
    rcases hrest with rfl | ⟨c, r', rfl, hcd, -⟩
    · simp
    · rw [List.takeWhile_cons, hcd]
      simp

/-- `effectiveLimit` on a parameter of JS numeric shape is the signed
value of its digit run clamped into [1, 50]. -/
theorem effectiveLimit_numeric (str : String) (ws sgn ds rest : List Char)
    (hdata : str.data = ws ++ sgn ++ ds ++ rest)
    (hws : ∀ c ∈ ws, c.isWhitespace = true)
    (hsgn : sgn = [] ∨ sgn = ['-'] ∨ sgn = ['+'])
    (hds : ∀ c ∈ ds, isDigitCh c = true) (hdne : ds ≠ [])
    (hrest : rest = [] ∨ ∃ c r', rest = c :: r' ∧ isDigitCh c = false) :
    effectiveLimit (some str) =
      (max 1 (min ((if sgn = ['-'] then -1 else 1) * (digitsVal ds : Int)) 50)).toNat := by
  have hstr : str ≠ "" := by
    intro hc
    apply hdne
    subst hc
    have hnil : ws ++ sgn ++ ds ++ rest = ([] : List Char) := hdata.symm
    rcases List.append_eq_nil.mp hnil with ⟨h2, -⟩
    exact (List.append_eq_nil.mp h2).2
  unfold effectiveLimit
  rw [show jsOrOpt (some str) "10" = str from by simp [jsOrOpt, hstr],
    jsParseInt10_decomposed str ws sgn ds rest hdata hws hsgn hds hdne hrest]

/-- `effectiveLimit` on an unsigned numeric parameter, in `Nat` form:
the digit-run value clamped into [1, 50]. -/
theorem effectiveLimit_unsigned (str : String) (ws ds rest : List Char)
    (hdata : str.data = ws ++ ds ++ rest)
    (hws : ∀ c ∈ ws, c.isWhitespace = true)
    (hds : ∀ c ∈ ds, isDigitCh c = true) (hdne : ds ≠ [])
    (hrest : rest = [] ∨ ∃ c r', rest = c :: r' ∧ isDigitCh c = false) :
    effectiveLimit (some str) = max 1 (min (digitsVal ds) 50) := by
  have h := effectiveLimit_numeric str ws [] ds rest (by simpa using hdata) hws
    (Or.inl rfl) hds hdne hrest
  rw [h, if_neg (show ¬ ([] : List Char) = ['-'] from by decide), one_mul]
  omega

/-- `effectiveLimit` keeps the default 10 on a parameter with no leading
number. -/
theorem effectiveLimit_non_numeric (str : String) (ws sgn rest : List Char)
    (hdata : str.data = ws ++ sgn ++ rest)
    (hws : ∀ c ∈ ws, c.isWhitespace = true)
    (hsgn : sgn = [] ∨ sgn = ['-'] ∨ sgn = ['+'])
    (hrest : rest = [] ∨ ∃ c r', rest = c :: r' ∧ isDigitCh c = false ∧
      (sgn = [] → c ≠ '-' ∧ c ≠ '+' ∧ c.isWhitespace = false)) :
    effectiveLimit (some str) = 10 := by
  by_cases hstr : str = ""
  · subst hstr
    decide
  · unfold effectiveLimit
    rw [show jsOrOpt (some str) "10" = str from by simp [jsOrOpt, hstr],
      jsParseInt10_non_numeric str ws sgn rest hdata hws hsgn hrest]

/-! Concrete data shared by feed examples. -/

/-- A trivial stand-in for the `Intl.NumberFormat` rendering. -/
def cFmt : String → ℚ → Nat → String := fun _ _ _ => "$"

/-- A trivial stand-in for `stripe.subscriptions.retrieve`. -/
def cRS : String → Except Unit Sub1 := fun _ => .ok ⟨none⟩

/-- A paid, consented session (timestamp 100, key pi_a). -/
def c5sA : FSession :=
  ⟨"cs_a", "paid", some ⟨some "Ann", some "ann@x.com"⟩, some "true", some "pi_a",
   "payment", some 500, none, some "usd", some 100⟩

/-- A paid, consented session (timestamp 100, key pi_b). -/
def c5sB : FSession :=
  ⟨"cs_b", "paid", some ⟨some "Bob", some "bob@x.com"⟩, some "true", some "pi_b",
   "payment", some 700, none, some "usd", some 100⟩

/-- C5 counterexample: with two accepted donations carrying the same
epoch-seconds timestamp, the returned items are not *strictly* descending
by timestamp, refuting the claim's strictness at this concrete input. -/
theorem c5_counterexample :
    (feedHandler2 none none cFmt 0 "GET" none (.ok [c5sA, c5sB])).status = 200 ∧
    ((feedHandler2 none none cFmt 0 "GET" none
      (.ok [c5sA, c5sB])).body.itemsOf.map FeedItem.ts = [100, 100]) ∧
    ¬ ((feedHandler2 none none cFmt 0 "GET" none (.ok [c5sA, c5sB])).body.itemsOf.Pairwise
        (fun a b => b.ts < a.ts)) := by
  refine ⟨by decide, by decide, by decide⟩

/-- C5 (amended): the effective limit is the `limit` query parameter
clamped to [1, 50], with 10 as the default when the parameter is absent.
The clamp is proved for every parameter of JS numeric shape - optional
leading whitespace, an optional sign, a digit run, an ignored non-digit
remainder - and a parameter with no leading number keeps the default 10.
The GET response carries at most `effectiveLimit` items, and the items
are sorted descending by their epoch-seconds timestamp, non-strictly:
equal timestamps may sit next to each other. -/
theorem c5_limit_and_sorted (excludeCsv showAllEnv : Option String)
    (fmt : String → ℚ → Nat → String) (now : Nat) (limitParam : Option String)
    (sessions : List FSession) :
    effectiveLimit none = 10 ∧
    (∀ (str : String) (ws sgn ds rest : List Char),
      str.data = ws ++ sgn ++ ds ++ rest →
      (∀ c ∈ ws, c.isWhitespace = true) →
      (sgn = [] ∨ sgn = ['-'] ∨ sgn = ['+']) →
      (∀ c ∈ ds, isDigitCh c = true) → ds ≠ [] →
      (rest = [] ∨ ∃ c r', rest = c :: r' ∧ isDigitCh c = false) →
      effectiveLimit (some str) =
        (max 1 (min ((if sgn = ['-'] then -1 else 1) * (digitsVal ds : Int)) 50)).toNat) ∧
    (∀ (str : String) (ws ds rest : List Char),
      str.data = ws ++ ds ++ rest →
      (∀ c ∈ ws, c.isWhitespace = true) →
      (∀ c ∈ ds, isDigitCh c = true) → ds ≠ [] →
      (rest = [] ∨ ∃ c r', rest = c :: r' ∧ isDigitCh c = false) →
      effectiveLimit (some str) = max 1 (min (digitsVal ds) 50)) ∧
    (∀ (str : String) (ws sgn rest : List Char),
      str.data = ws ++ sgn ++ rest →
      (∀ c ∈ ws, c.isWhitespace = true) →
      (sgn = [] ∨ sgn = ['-'] ∨ sgn = ['+']) →
      (rest = [] ∨ ∃ c r', rest = c :: r' ∧ isDigitCh c = false ∧
        (sgn = [] → c ≠ '-' ∧ c ≠ '+' ∧ c.isWhitespace = false)) →
      effectiveLimit (some str) = 10) ∧
    (feedHandler2 excludeCsv showAllEnv fmt now "GET" limitParam (.ok sessions)).status = 200 ∧
    (feedHandler2 excludeCsv showAllEnv fmt now "GET" limitParam
        (.ok sessions)).body.itemsOf.length ≤ effectiveLimit limitParam ∧
    (feedHandler2 excludeCsv showAllEnv fmt now "GET" limitParam
        (.ok sessions)).body.itemsOf.Pairwise (fun a b => b.ts ≤ a.ts) := by
  have hrun : feedHandler2 excludeCsv showAllEnv fmt now "GET" limitParam (.ok sessions) =
      ⟨200, .items ((sortTsDesc ((feedAccept (parseCsvSet excludeCsv)
        (showAllForTest showAllEnv) (effectiveLimit limitParam) sessions [] 0).map
        (mkFeedItem fmt now))).take (effectiveLimit limitParam)), []⟩ := by
    simp [feedHandler2]
  refine ⟨by decide, effectiveLimit_numeric, effectiveLimit_unsigned,
    effectiveLimit_non_numeric, ?_, ?_, ?_⟩
  · rw [hrun]
  · rw [hrun]
    simp [FeedBody.itemsOf]
  · rw [hrun]
    exact List.Pairwise.sublist (List.take_sublist _ _) (sortTsDesc_pairwise _)

/-- Closed witness for C5 (amended): " 42abc" clamps to 42 (whitespace
and trailing garbage ignored), "-3" clamps to the lower bound through the
signed form, "abc" keeps the default 10, and the limit bounds the
two-item result. -/
theorem c5_witness :
    effectiveLimit (some " 42abc") = max 1 (min (digitsVal ['4', '2']) 50) ∧
    effectiveLimit (some "-3") =
      (max 1 (min ((if (['-'] : List Char) = ['-'] then -1 else 1) *
        (digitsVal ['3'] : Int)) 50)).toNat ∧
    effectiveLimit (some "abc") = 10 ∧
    (feedHandler2 none none cFmt 0 "GET" (some " 42abc") (.ok [c5sA, c5sB])).status = 200 ∧
    (feedHandler2 none none cFmt 0 "GET" (some " 42abc")
        (.ok [c5sA, c5sB])).body.itemsOf.length ≤ effectiveLimit (some " 42abc") :=
  ⟨(c5_limit_and_sorted none none cFmt 0 (some " 42abc") [c5sA, c5sB]).2.2.1
      " 42abc" [' '] ['4', '2'] ['a', 'b', 'c'] (by decide) (by decide) (by decide)
      (by decide) (Or.inr ⟨'a', ['b', 'c'], rfl, by decide⟩),
   (c5_limit_and_sorted none none cFmt 0 (some "-3") [c5sA, c5sB]).2.1
      "-3" [] ['-'] ['3'] [] (by decide) (by decide) (Or.inr (Or.inl rfl))
      (by decide) (by decide) (Or.inl rfl),
   (c5_limit_and_sorted none none cFmt 0 (some "abc") [c5sA, c5sB]).2.2.2.1
      "abc" [] [] ['a', 'b', 'c'] (by decide) (by decide) (Or.inl rfl)
      (Or.inr ⟨'a', ['b', 'c'], rfl, by decide,
        fun _ => ⟨by decide, by decide, by decide⟩⟩),
   (c5_limit_and_sorted none none cFmt 0 (some " 42abc") [c5sA, c5sB]).2.2.2.2.1,
   (c5_limit_and_sorted none none cFmt 0 (some " 42abc") [c5sA, c5sB]).2.2.2.2.2.1⟩

/-- C6: for every currency whose uppercased code is in the documented
zero-decimal set, formatting 1000 minor units yields the value 1000 with
no division (and zero fraction digits); for every other currency the
1000 minor units are divided by 100, yielding the value 10 rendered with
two fraction digits. -/
theorem c6_zero_decimal_formatting (c : String) :
    (ZERO_DEC.contains (jsToUpper (jsOr c "USD")) = true →
      formatAmountCore 1000 c = (jsToUpper (jsOr c "USD"), 1000, 0)) ∧
    (ZERO_DEC.contains (jsToUpper (jsOr c "USD")) = false →
      formatAmountCore 1000 c = (jsToUpper (jsOr c "USD"), 10, 2)) := by
  constructor <;> intro h
  · have hm : jsToUpper (jsOr c "USD") ∈ ZERO_DEC := by simpa using h
    simp [formatAmountCore, hm]
  · have hm : jsToUpper (jsOr c "USD") ∉ ZERO_DEC := by simpa using h
    simp [formatAmountCore, hm]
    norm_num

/-- Closed witness for C6: JPY stays at 1000 whole units, usd becomes
10 (rendered with two decimals). -/
theorem c6_witness :
    ZERO_DEC.contains (jsToUpper (jsOr "JPY" "USD")) = true ∧
    formatAmountCore 1000 "JPY" = (jsToUpper (jsOr "JPY" "USD"), 1000, 0) ∧
    ZERO_DEC.contains (jsToUpper (jsOr "usd" "USD")) = false ∧
    formatAmountCore 1000 "usd" = (jsToUpper (jsOr "usd" "USD"), 10, 2) :=
  ⟨by decide, (c6_zero_decimal_formatting "JPY").1 (by decide), by decide,
   (c6_zero_decimal_formatting "usd").2 (by decide)⟩

/-- C7: the SHOW_ALL_FOR_TEST override changes only whether the
public-display-consent check applies: a candidate is rejected by the
payment-success filter, or by the excluded-email filter, in the run with
the override on exactly when it is in the run with the override off; and
with the override on no candidate is ever rejected for missing consent. -/
theorem c7_override_only_consent (excludeSet : List String) (limit count : Nat)
    (seen : List String) (s : FSession) :
    ((candidateVerdict excludeSet true limit count seen s = .notPaid) ↔
      (candidateVerdict excludeSet false limit count seen s = .notPaid)) ∧
    ((candidateVerdict excludeSet true limit count seen s = .excludedEmail) ↔
      (candidateVerdict excludeSet false limit count seen s = .excludedEmail)) ∧
    ((candidateVerdict excludeSet true limit count seen s = .limitReached) ↔
      (candidateVerdict excludeSet false limit count seen s = .limitReached)) ∧
    candidateVerdict excludeSet true limit count seen s ≠ .noConsent := by
  unfold candidateVerdict
  split_ifs <;> simp_all

/-- C9 counterexample: on an upstream failure the v2 feed handler answers
500 with the generic error body - not with an empty items list, as the
claim states. -/
theorem c9_counterexample :
    (feedHandler2 none none cFmt 0 "GET" none (.error "stripe unreachable")).status = 500 ∧
    (feedHandler2 none none cFmt 0 "GET" none (.error "stripe unreachable")).body =
      .error "Internal server error" ∧
    (feedHandler2 none none cFmt 0 "GET" none (.error "stripe unreachable")).body ≠
      .items [] ∧
    (feedHandler2 none none cFmt 0 "GET" none (.error "stripe unreachable")).logs =
      ["stripe unreachable"] := by
  refine ⟨by decide, by decide, by decide, by decide⟩

/-- C9 (amended): when the upstream query errors, the v1 handler answers
500 with an empty items list and the v2 handler answers 500 with the
generic `Internal server error` body carrying no donation data; both log
the cause, and both return normally (no fault escapes to the caller). -/
theorem c9_error_paths (excludeCsv showAllEnv : Option String)
    (fmt : String → ℚ → Nat → String) (now : Nat) (limitParam : Option String)
    (e : String) (retrieveSub : String → Except Unit Sub1) :
    feedHandler2 excludeCsv showAllEnv fmt now "GET" limitParam (.error e) =
      ⟨500, .error "Internal server error", [e]⟩ ∧
    feedHandler1 fmt retrieveSub (.error e) = ⟨500, .items [], [e]⟩ := by
  constructor
  · simp [feedHandler2]
  · simp [feedHandler1]

/-- A paid, consented session with a customer name but no email. -/
def c10s : FSession :=
  ⟨"cs_c", "paid", some ⟨some "Alice", none⟩, some "true", some "pi_c",
   "payment", some 500, none, some "usd", some 5⟩

/-- C10 counterexample: a candidate with no email is indeed never
rejected by the exclusion filter, but when it carries a customer name the
accepted item's display name is that name, not the claimed "Someone"
fallback. -/
theorem c10_counterexample :
    sessionEmail c10s = "" ∧
    isExcludedEmail (parseCsvSet none) (sessionEmail c10s) = false ∧
    ((feedHandler2 none none cFmt 0 "GET" none (.ok [c10s])).body.itemsOf.map
      FeedItem.name = ["Alice"]) ∧
    ("Alice" : String) ≠ "Someone" := by
  refine ⟨by decide, by decide, by decide, by decide⟩

/-- C10 (amended): a candidate whose customer email is missing or empty
is never rejected by the excluded-email filter, and if it passes the
remaining filters *and carries no (non-blank) customer-provided name*,
its display name falls back to "Someone". -/
theorem c10_missing_email (excludeSet : List String) (showAll : Bool)
    (limit count : Nat) (seen : List String) (s : FSession)
    (fmt : String → ℚ → Nat → String) (now : Nat)
    (he : sessionEmail s = "") :
    candidateVerdict excludeSet showAll limit count seen s ≠ .excludedEmail ∧
    (jsTrim (jsOrOpt (s.customer_details.bind (fun c => c.name)) "") = "" →
      (mkFeedItem fmt now s).name = "Someone") := by
  constructor
  · unfold candidateVerdict
    rw [he]
    have : isExcludedEmail excludeSet "" = false := by simp [isExcludedEmail]
    split_ifs <;> simp_all
  · intro hn
    unfold mkFeedItem
    dsimp only
    rw [he]
    unfold displayName
    rw [hn]
    simp [jsOr, jsTrim]

/-- A paid, consented session with neither a customer name nor an email. -/
def c10s2 : FSession :=
  ⟨"cs_d", "paid", some ⟨none, none⟩, some "true", some "pi_d",
   "payment", some 300, none, some "usd", some 6⟩

/-- Closed witness for C10 (amended): an email-less, name-less session is
not rejected by the exclusion filter and renders as "Someone". -/
theorem c10_witness :
    candidateVerdict [] false 10 0 [] c10s2 ≠ .excludedEmail ∧
    (mkFeedItem cFmt 0 c10s2).name = "Someone" :=
  ⟨(c10_missing_email [] false 10 0 [] c10s2 cFmt 0 (by decide)).1,
   (c10_missing_email [] false 10 0 [] c10s2 cFmt 0 (by decide)).2 (by decide)⟩

/-- An accepted candidate has a truthy, unseen de-dupe key. -/
theorem candidateVerdict_accept_key {excludeSet : List String} {showAll : Bool}
    {limit count : Nat} {seen : List String} {s : FSession}
    (h : candidateVerdict excludeSet showAll limit count seen s = .accept) :
    dedupKey s ≠ "" ∧ dedupKey s ∉ seen := by
  unfold candidateVerdict at h
  split_ifs at h
  simp_all

/-- Invariant of the v2 acceptance loop: accepted keys avoid `seen`, and
the accepted sessions carry pairwise-distinct keys. -/
theorem feedAccept_keys_aux (excludeSet : List String) (showAll : Bool) (limit : Nat)
    (ss : List FSession) : ∀ (seen : List String) (count : Nat),
    (∀ t ∈ feedAccept excludeSet showAll limit ss seen count, dedupKey t ∉ seen) ∧
    ((feedAccept excludeSet showAll limit ss seen count).map dedupKey).Nodup := by
  induction ss with
  | nil =>
    intro seen count
    simp [feedAccept]
  | cons s rest ih =>
    intro seen count
    cases hv : candidateVerdict excludeSet showAll limit count seen s with
    | limitReached => simp [feedAccept, hv]
    | notPaid => simpa [feedAccept, hv] using ih seen count
    | excludedEmail => simpa [feedAccept, hv] using ih seen count
    | noConsent => simpa [feedAccept, hv] using ih seen count
    | dupOrNoKey => simpa [feedAccept, hv] using ih seen count
    | accept =>
      obtain ⟨hkne, hkuns⟩ := candidateVerdict_accept_key hv
      have ihh := ih (dedupKey s :: seen) (count + 1)
      rw [feedAccept]
      rw [hv]
      constructor
      · intro t ht
        rcases List.mem_cons.mp ht with rfl | ht'
        · exact hkuns
        · have := ihh.1 t ht'
          intro hc
          exact this (List.mem_cons.mpr (Or.inr hc))
      · rw [List.map_cons, List.nodup_cons]
        refine ⟨?_, ihh.2⟩
        intro hc
        obtain ⟨t, htF, hteq⟩ := List.mem_map.mp hc
        have := ihh.1 t htF
        rw [hteq] at this
        exact this (List.mem_cons_self _ _)

/-- C4: duplication in the feed is keyed on the payment-intent id when
truthy, falling back to the session id; the accepted feed candidates
carry pairwise-distinct keys, so an accepted payment appears exactly
once; and in the events-based pipeline an `invoice.paid` event
contributes nothing while the completed-checkout event for the same
payment contributes its one item - the checkout-derived item is the one
that survives. -/
theorem c4_dedup_exactly_one :
    (∀ (fmt : String → ℚ → Nat → String) (retrieveSub : String → Except Unit Sub1)
       (evt : Event1), evt.type = "invoice.paid" →
       itemsOfEvent1 fmt retrieveSub evt = []) ∧
    (∀ (fmt : String → ℚ → Nat → String) (retrieveSub : String → Except Unit Sub1)
       (evt : Event1) (s : Sess1) (amt : Int),
       evt.type = "checkout.session.completed" → evt.obj = .sess s →
       s.mode ≠ "subscription" → jsTruthyS s.subscription = false →
       s.amount_total = some amt →
       itemsOfEvent1 fmt retrieveSub evt =
         [buildItem1 fmt ⟨jsOrOpt2 (s.customer_details.bind (fun c => c.email))
            s.customer_email, amt, jsOrOpt s.currency "USD", "payment",
            evt.created, none⟩]) ∧
    (∀ (excludeSet : List String) (showAll : Bool) (limit : Nat)
       (sessions : List FSession),
       ((feedAccept excludeSet showAll limit sessions [] 0).map dedupKey).Nodup) ∧
    (∀ (s : FSession) (p : String), s.payment_intent = some p → p ≠ "" →
       dedupKey s = p) ∧
    (∀ s : FSession, s.payment_intent = none ∨ s.payment_intent = some "" →
       dedupKey s = s.id) ∧
    (∀ (excludeSet : List String) (showAll : Bool) (limit : Nat)
       (sessions : List FSession) (t : FSession),
       t ∈ feedAccept excludeSet showAll limit sessions [] 0 →
       ((feedAccept excludeSet showAll limit sessions [] 0).map dedupKey).count
         (dedupKey t) = 1) := by
  refine ⟨?_, ?_, ?_, ?_, ?_, ?_⟩
  · intro fmt retrieveSub evt ht
    simp [itemsOfEvent1, ht]
  · intro fmt retrieveSub evt s amt ht hobj hmode hsub hamt
    simp [itemsOfEvent1, ht, hobj, sess1Of, hmode, hsub, hamt, Option.orElse]
  · intro excludeSet showAll limit sessions
    exact (feedAccept_keys_aux excludeSet showAll limit sessions [] 0).2
  · intro s p hp hpne
    simp [dedupKey, jsOrOpt, hp, hpne]
  · intro s hp
    rcases hp with hp | hp
    · simp [dedupKey, jsOrOpt, hp]
    · simp [dedupKey, jsOrOpt, hp]
  · intro excludeSet showAll limit sessions t ht
    exact List.count_eq_one_of_mem (feedAccept_keys_aux excludeSet showAll limit sessions [] 0).2
      (List.mem_map_of_mem dedupKey ht)

/-- A paid, consented session sharing payment intent pi_a with `c5sA`. -/
def c4dup : FSession :=
  ⟨"cs_e", "paid", some ⟨some "Ann", some "ann@x.com"⟩, some "true", some "pi_a",
   "payment", some 500, none, some "usd", some 90⟩

/-- Closed witness for C4: an invoice event yields nothing; a session
list with a repeated payment intent yields distinct keys and counts the
shared payment exactly once. -/
theorem c4_witness :
    itemsOfEvent1 cFmt cRS ⟨"invoice.paid", 77, .inv⟩ = [] ∧
    ((feedAccept [] true 10 [c5sA, c4dup, c5sB] [] 0).map dedupKey).Nodup ∧
    dedupKey c5sA = "pi_a" ∧
    ((feedAccept [] true 10 [c5sA, c4dup, c5sB] [] 0).map dedupKey).count
      (dedupKey c5sA) = 1 :=
  ⟨c4_dedup_exactly_one.1 cFmt cRS ⟨"invoice.paid", 77, .inv⟩ rfl,
   c4_dedup_exactly_one.2.2.1 [] true 10 [c5sA, c4dup, c5sB],
   c4_dedup_exactly_one.2.2.2.1 c5sA "pi_a" rfl (by decide),
   c4_dedup_exactly_one.2.2.2.2.2 [] true 10 [c5sA, c4dup, c5sB] c5sA (by decide)⟩

/-! ## C8: display-name shape -/

/-- The per-character effect of `replace(/[._-]+/g, " ")`, before run
collapsing: separators become spaces, everything else stays. -/
def sepSubst (c : Char) : Char := if isSepChar c then ' ' else c

/-- Drop empty segments of a split. -/
def dropNilSegs (segs : List (List Char)) : List (List Char) :=
  segs.filter (fun t => !t.isEmpty)

/-- The separator-split tokens of an email local part, as the spec words
them: split on the separator characters '.', '_', '-' and on spaces,
dropping empty tokens. -/
def specEmailTokens (l : List Char) : List (List Char) :=
  dropNilSegs (splitChP (fun c => isSepChar c || c = ' ') l)

/-- The privacy bound asserted by the claim: at most one leading token
plus an optional trailing token that is a bare initial (one letter,
optionally followed by a period). -/
def atMostFirstNameAndInitial (s : String) : Bool :=
  match (jsSplit ' ' s).filter (· ≠ "") with
  | [] => true
  | [_] => true
  | [_, lastTok] => lastTok.data.length ≤ 2
  | _ => false

/-- `splitChP` never returns the empty list. -/
theorem splitChP_ne_nil (p : Char → Bool) (l : List Char) : splitChP p l ≠ [] := by
  cases l with
  | nil => simp [splitChP]
  | cons c rest =>
    rw [splitChP]
    split
    · simp
    · split <;> simp

/-- `splitChP` on a separator head opens a fresh segment. -/
theorem splitChP_cons_pos (p : Char → Bool) (c : Char) (l : List Char) (h : p c = true) :
    splitChP p (c :: l) = [] :: splitChP p l := by
  rw [splitChP]
  cases hs : splitChP p l with
  | nil => exact absurd hs (splitChP_ne_nil p l)
  | cons t ts => simp [h]

/-- `splitChP` on a non-separator head extends the first segment. -/
theorem splitChP_cons_neg (p : Char → Bool) (c : Char) (l : List Char) (h : p c = false) :
    splitChP p (c :: l) = (c :: (splitChP p l).headD []) :: (splitChP p l).tail := by
  rw [splitChP]
  cases hs : splitChP p l with
  | nil => exact absurd hs (splitChP_ne_nil p l)
  | cons t ts => simp [h]

/-- Substituting separators by spaces turns the separator-or-space test
into the space test. -/
theorem sepSubst_space (c : Char) :
    (decide (sepSubst c = ' ')) = (isSepChar c || decide (c = ' ')) := by
  unfold sepSubst
  by_cases h : isSepChar c = true
  · simp [h]
  · simp only [Bool.not_eq_true] at h
    simp [h]

/-- Splitting on separators-and-spaces is splitting on spaces after the
per-character substitution. -/
theorem splitChP_sep_map (l : List Char) :
    splitChP (fun c => isSepChar c || c = ' ') l =
      splitChP (fun c => c = ' ') (l.map sepSubst) := by
  induction l with
  | nil => simp [splitChP]
  | cons c rest ih =>
    rw [List.map_cons]
    by_cases h : (isSepChar c || decide (c = ' ')) = true
    · rw [splitChP_cons_pos _ _ _ h, ih,
        splitChP_cons_pos _ _ _ ((sepSubst_space c).trans h)]
    · have h' : (isSepChar c || decide (c = ' ')) = false := by
        simpa using h
      have hsepf : isSepChar c = false := by
        rcases Bool.or_eq_false_iff.mp h' with ⟨h1, _⟩
        exact h1
      have hsub : sepSubst c = c := by
        simp [sepSubst, hsepf]
      rw [splitChP_cons_neg _ _ _ h', ih,
        splitChP_cons_neg _ _ _ ((sepSubst_space c).trans h'), hsub]

/-- Collapsing separator runs to single spaces (as the regex with `+`
does) and substituting each separator by a space (no collapsing) give the
same space-split segments once empty segments are dropped; outside a run
the two even agree on the first segment. -/
theorem sepRunsGo_split (l : List Char) :
    ((splitChP (fun c => c = ' ') (sepRunsGo false l)).headD [] =
       (splitChP (fun c => c = ' ') (l.map sepSubst)).headD [] ∧
     dropNilSegs (splitChP (fun c => c = ' ') (sepRunsGo false l)) =
       dropNilSegs (splitChP (fun c => c = ' ') (l.map sepSubst))) ∧
    dropNilSegs (splitChP (fun c => c = ' ') (sepRunsGo true l)) =
      dropNilSegs (splitChP (fun c => c = ' ') (l.map sepSubst)) := by
  induction l with
  | nil => simp [sepRunsGo]
  | cons c rest ih =>
    by_cases hsep : isSepChar c = true
    · have hsub : sepSubst c = ' ' := by simp [sepSubst, hsep]
      have hfalse : sepRunsGo false (c :: rest) = ' ' :: sepRunsGo true rest := by
        simp [sepRunsGo, hsep]
      have htrue : sepRunsGo true (c :: rest) = sepRunsGo true rest := by
        simp [sepRunsGo, hsep]
      rw [List.map_cons, hsub, hfalse, htrue,
        splitChP_cons_pos _ _ _ (by simp),
        splitChP_cons_pos _ _ _ (by simp)]
      refine ⟨⟨rfl, ?_⟩, ?_⟩
      · simpa [dropNilSegs] using ih.2
      · simpa [dropNilSegs] using ih.2
    · have hsub : sepSubst c = c := by simp [sepSubst, hsep]
      by_cases hsp : c = ' '
      · subst hsp
        have hgo : ∀ b, sepRunsGo b (' ' :: rest) = ' ' :: sepRunsGo false rest := by
          intro b
          simp [sepRunsGo, hsep]
        rw [List.map_cons, hsub, hgo, hgo,
          splitChP_cons_pos _ _ _ (by simp),
          splitChP_cons_pos _ _ _ (by simp)]
        refine ⟨⟨rfl, ?_⟩, ?_⟩
        · simpa [dropNilSegs] using ih.1.2
        · simpa [dropNilSegs] using ih.1.2
      · have hgo : ∀ b, sepRunsGo b (c :: rest) = c :: sepRunsGo false rest := by
          intro b
          simp [sepRunsGo, hsep]
        have hc : (decide (c = ' ')) = false := by simpa using hsp
        cases hS1 : splitChP (fun c => decide (c = ' ')) (sepRunsGo false rest) with
        | nil => exact absurd hS1 (splitChP_ne_nil _ _)
        | cons h1 t1 =>
          cases hS2 : splitChP (fun c => decide (c = ' ')) (rest.map sepSubst) with
          | nil => exact absurd hS2 (splitChP_ne_nil _ _)
          | cons h2 t2 =>
            have ihh := ih.1.1
            have ihf := ih.1.2
            rw [hS1, hS2] at ihh ihf
            simp only [List.headD_cons, List.tail_cons] at ihh
            subst ihh
            have htails : dropNilSegs t1 = dropNilSegs t2 := by
              cases hb : h1.isEmpty with
              | true => simpa [dropNilSegs, List.filter_cons, hb] using ihf
              | false =>
                have hf := ihf
                simp only [dropNilSegs, List.filter_cons, hb, Bool.not_false, if_true,
                  List.cons.injEq, true_and] at hf
                simpa [dropNilSegs] using hf
            rw [List.map_cons, hsub, hgo, hgo,
              splitChP_cons_neg _ _ _ hc, splitChP_cons_neg _ _ _ hc, hS1, hS2]
            simp only [List.headD_cons, List.tail_cons]
            constructor
            · constructor
              · trivial
              · simpa [dropNilSegs] using htails
            · simpa [dropNilSegs] using htails

/-- Mapping `String.mk` commutes dropping empty segments with dropping
empty strings. -/
theorem filter_mk_eq_dropNilSegs (segs : List (List Char)) :
    ((segs.map String.mk).filter (· ≠ "")) = (dropNilSegs segs).map String.mk := by
  have hpt : ∀ t : List Char, (decide ((String.mk t) ≠ "")) = !t.isEmpty := by
    intro t
    cases t with
    | nil => decide
    | cons c r =>
      have hne : (String.mk (c :: r)) ≠ "" := by
        intro h
        have h2 : c :: r = ([] : List Char) := congrArg String.data h
        cases h2
      simp [hne]
  rw [List.filter_map, dropNilSegs]
  congr 1
  exact List.filter_congr (fun t _ => hpt t)

/-- The v2 `displayName` token pipeline - replace separator runs by
spaces, split on spaces, drop empties - computes exactly the
separator-split tokens of the spec reading. -/
theorem displayName_tokens (l : List Char) :
    (jsSplit ' ' (⟨sepRunsGo false l⟩ : String)).filter (· ≠ "") =
      (specEmailTokens l).map String.mk := by
  unfold jsSplit specEmailTokens
  rw [splitChP_sep_map, filter_mk_eq_dropNilSegs, (sepRunsGo_split l).1.2]

/-- A capitalized non-empty token is a non-empty string. -/
theorem capToken_mk_ne_empty {t : List Char} (h : t ≠ []) : capToken ⟨t⟩ ≠ "" := by
  cases t with
  | nil => exact absurd rfl h
  | cons c r =>
    unfold capToken
    intro hc
    have h2 : c.toUpper :: r = ([] : List Char) := congrArg String.data hc
    cases h2

/-- Joining a non-empty list of non-empty strings with spaces is
non-empty. -/
theorem joinSp_ne_empty : ∀ xs : List String, xs ≠ [] → (∀ x ∈ xs, x ≠ "") →
    joinSp xs ≠ "" := by
  intro xs
  match xs with
  | [] => intro h _; exact absurd rfl h
  | [x] =>
    intro _ hall
    simpa [joinSp] using hall x (List.mem_singleton_self x)
  | x :: y :: ys =>
    intro _ _
    rw [joinSp]
    intro hc
    have h2 := congrArg String.data hc
    rw [String.data_append, String.data_append] at h2
    have h3 : (" " : String).data = [' '] := rfl
    rw [h3] at h2
    simp at h2

/-- C8 counterexample: for an accepted candidate with email local part
"john.doe" and no customer name, the v2 feed's `displayName` renders
"John Doe" - a full last name, beyond the claimed first-name-plus-initial
bound (which the v1 helper `nameFromEmail` does satisfy here). -/
theorem c8_counterexample :
    displayName none "john.doe@example.com" = "John Doe" ∧
    atMostFirstNameAndInitial "John Doe" = false ∧
    nameFromEmail (some "john.doe@example.com") = "John D." ∧
    atMostFirstNameAndInitial "John D." = true := by
  refine ⟨by decide, by decide, by decide, by decide⟩

/-- C8 (amended): the v2 `displayName` prefers the trimmed explicit
customer name (returned whole); otherwise, for a non-blank email, it
title-cases every separator-split token of the email local part and
joins them all with spaces (so it can expose a full last name, not just
an initial), falling back to "Someone" when no tokens remain; with
neither name nor email it is "Someone". -/
theorem c8_display_name_shape (name : Option String) (email : String) :
    (jsTrim (jsOrOpt name "") ≠ "" → displayName name email = jsTrim (jsOrOpt name "")) ∧
    (jsTrim (jsOrOpt name "") = "" → jsTrim (jsOr email "") = "" →
      displayName name email = "Someone") ∧
    (jsTrim (jsOrOpt name "") = "" → jsTrim (jsOr email "") ≠ "" →
      displayName name email =
        (if specEmailTokens ((jsSplit '@' (jsTrim (jsOr email ""))).headD "").data = []
         then "Someone"
         else joinSp (((specEmailTokens ((jsSplit '@' (jsTrim (jsOr email ""))).headD
           "").data).map String.mk).map capToken))) := by
  refine ⟨?_, ?_, ?_⟩
  · intro hn
    unfold displayName
    rw [if_pos hn]
  · intro hn he
    unfold displayName
    dsimp only
    rw [if_neg (by simpa using hn), if_neg (by simpa using he)]
  · intro hn he
    unfold displayName
    dsimp only
    rw [if_neg (by simpa using hn), if_pos he, displayName_tokens]
    cases hT : specEmailTokens ((jsSplit '@' (jsTrim (jsOr email ""))).headD "").data with
    | nil => simp [joinSp]
    | cons t ts =>
      have hne : joinSp (((t :: ts).map String.mk).map capToken) ≠ "" := by
        apply joinSp_ne_empty
        · simp
        · intro x hx
          rw [List.map_map] at hx
          obtain ⟨u, hu, hux⟩ := List.mem_map.mp hx
          have hmem : u ∈ specEmailTokens
              ((jsSplit '@' (jsTrim (jsOr email ""))).headD "").data := by
            rw [hT]
            exact hu
          have hune : u ≠ [] := by
            unfold specEmailTokens dropNilSegs at hmem
            have hb := List.of_mem_filter hmem
            intro hc
            subst hc
            simp at hb
          rw [← hux]
          exact capToken_mk_ne_empty hune
      rw [if_pos hne, if_neg (by simp)]

/-- Closed witness for C8 (amended): an explicit name wins (trimmed); no
name and no email gives "Someone"; "jo.anne" renders via the
separator-split tokens as the joined title-cased "Jo Anne". -/
theorem c8_witness :
    displayName (some " Carol Ann ") "x@y.z" = jsTrim (jsOrOpt (some " Carol Ann ") "") ∧
    displayName none "" = "Someone" ∧
    displayName none "jo.anne@x.io" =
      (if specEmailTokens ((jsSplit '@' (jsTrim (jsOr "jo.anne@x.io" ""))).headD "").data = []
       then "Someone"
       else joinSp (((specEmailTokens ((jsSplit '@' (jsTrim (jsOr "jo.anne@x.io"
         ""))).headD "").data).map String.mk).map capToken)) :=
  ⟨(c8_display_name_shape (some " Carol Ann ") "x@y.z").1 (by decide),
   (c8_display_name_shape none "").2.1 (by decide) (by decide),
   (c8_display_name_shape none "jo.anne@x.io").2.2 (by decide) (by decide)⟩
